import Mathlib

/-!
Verification of the retrieval-and-ranking backend in `src/backend/main.py`
(StudySpark AI API, FastAPI service).

Python strings are modelled as `List Char`; Python dicts keyed by `doc_id`
as association lists `List (String × _)`; floating-point relevance scores as
`ℚ` (supplied as inputs where the source obtains them from the external
sklearn TF-IDF cosine computation); the external LLM collaborator
(`call_llm`) as an oracle `List Char → List Char` parameter.  Rational
constants are written with `mkRat` so that they evaluate by kernel
reduction.
-/

namespace StudySpark

/-- Whitespace set of Python `str.strip()` (space, tab, newline, carriage
return, vertical tab, form feed). -/
def isPySpace (c : Char) : Bool :=
  c = ' ' || c = '\t' || c = '\n' || c = '\r' || c = '\x0b' || c = '\x0c'

/-- Python `s.strip()`: drop leading and trailing whitespace. -/
def pyStrip (s : List Char) : List Char :=
  ((s.dropWhile isPySpace).reverse.dropWhile isPySpace).reverse

/-- Truthiness of `not text.strip()` in Python: the string is empty or
consists only of whitespace. -/
def isBlank (s : List Char) : Bool :=
  s.all isPySpace

/-- Membership of a character in the Arabic Unicode block U+0600–U+06FF,
the test used by `detect_lang` (main.py line 100). -/
def isArabicChar (c : Char) : Bool :=
  '؀' ≤ c && c ≤ 'ۿ'

/-- `detect_lang` (main.py lines 97–104): if any Arabic character exists the
language is `"ar"`, otherwise `"en"`. -/
def detect_lang (text : List Char) : String :=
  if text.any isArabicChar then "ar" else "en"

/-- Failure marker of the generation collaborator: `call_llm` (main.py
lines 186–210) returns a string starting with `"LLM Error"` on any failure. -/
def llm_error_marker : List Char := "LLM Error".data

/-- Prompt built by `translate_to_english_if_needed` (main.py lines 219–225),
an f-string around the question text. -/
def translationPrompt (text : List Char) : List Char :=
  "\nTranslate the following question to English.\nReturn ONLY the translated question.\n\nQuestion:\n".data
    ++ text ++ "\n".data

/-- `translate_to_english_if_needed` (main.py lines 213–232), parametrized by
the external LLM oracle.  If the text is Arabic, the LLM is asked for a
translation; an empty or `"LLM Error"`-prefixed reply falls back to the
original text.  Non-Arabic text passes through unchanged.  (The Python
`(call_llm(prompt) or "")` guard only matters for `None`, which the string
oracle cannot produce.) -/
def translate_to_english_if_needed (llm : List Char → List Char) (text : List Char) :
    List Char :=
  if detect_lang text = "ar" then
    let translated := pyStrip (llm (translationPrompt text))
    if translated = [] || llm_error_marker.isPrefixOf translated then text
    else translated
  else text

/-! ### Chunker (`chunk_pages`, main.py lines 116–131) -/

/-- Normalization applied to each page before chunking:
`(page_text or "").replace("\r", "")` removes every carriage return. -/
def normalizePage (page : List Char) : List Char :=
  page.filter (fun c => c ≠ '\r')

/-- Inner `while` loop of `chunk_pages`, with explicit fuel so that the
recursion is structural: at offset `i`, emit `text[i : i + chunk_size]` and
advance by `max 1 (chunk_size - overlap)` until the offset reaches the end
of the page text.  Each iteration advances the offset by at least one, so
any fuel of at least `text.length - i` yields the loop's result. -/
def chunkLoop (text : List Char) (chunk_size overlap : ℕ) :
    ℕ → ℕ → List (List Char)
  | _, 0 => []
  | i, fuel + 1 =>
    if i < text.length then
      ((text.drop i).take chunk_size) ::
        chunkLoop text chunk_size overlap (i + max 1 (chunk_size - overlap)) fuel
    else []

/-- Chunks emitted for one page starting at offset `i`
(main.py lines 126–130). -/
def chunkFrom (text : List Char) (chunk_size overlap i : ℕ) : List (List Char) :=
  chunkLoop text chunk_size overlap i (text.length - i)

/-- Start offsets visited by the `chunk_pages` loop on a page of length `N`
(`0, step, 2·step, …` while below `N`, `step = max 1 (chunk_size - overlap)`),
with the same fuel discipline as `chunkLoop`. -/
def startsLoop (N chunk_size overlap : ℕ) : ℕ → ℕ → List ℕ
  | _, 0 => []
  | i, fuel + 1 =>
    if i < N then
      i :: startsLoop N chunk_size overlap (i + max 1 (chunk_size - overlap)) fuel
    else []

/-- Start offsets of all chunks of a page of length `N`. -/
def startsFrom (N chunk_size overlap i : ℕ) : List ℕ :=
  startsLoop N chunk_size overlap i (N - i)

/-- Character spans `[start, stop)` of the passages emitted for one page of
length `N`: span `(s, min (s + chunk_size) N)` for each loop offset `s`. -/
def pageSpans (N chunk_size overlap : ℕ) : List (ℕ × ℕ) :=
  (startsFrom N chunk_size overlap 0).map (fun s => (s, min (s + chunk_size) N))

/-- `chunk_pages` (main.py lines 116–131): chunk within each page so each
chunk has a reliable 1-based page number; pages whose normalized text is
empty or whitespace-only contribute no chunks. -/
def chunk_pages (pages : List (List Char)) (chunk_size overlap : ℕ) :
    List (List Char × ℕ) :=
  (List.enumFrom 1 pages).flatMap (fun pi =>
    let text := normalizePage pi.2
    if isBlank text then []
    else (chunkFrom text chunk_size overlap 0).map (fun c => (c, pi.1)))

/-! ### Retriever (`retrieve_chunks_for_doc`, main.py lines 141–170) -/

/-- In-memory chunk record as stored in `CHUNK_STORE`
(a dict `{"text": ..., "page": ...}`). -/
structure MemChunk where
  text : List Char
  page : ℕ
deriving DecidableEq, Repr

/-- Ephemeral ranked record produced at query time (main.py lines 161–169).
The Python code stores the label as the string `"S{rank}"`; we keep the
numeric rank in `label`. -/
structure Hit where
  label : ℕ
  doc_id : String
  score : ℚ
  text : List Char
  page : ℕ
deriving DecidableEq, Repr

/-- Everything NumPy guarantees about `sims.argsort()`: the result is a
permutation of `0 … len(sims)-1` ordered by value ascending.  The default
sort kind (quicksort/introsort) is NOT stable, so the order of tying
indices is left unspecified; the argsort result is therefore passed into
the retrieval model as an input constrained by this predicate rather than
computed by a determinizing function. -/
def validArgsort (sims : List ℚ) (idx : List ℕ) : Prop :=
  idx.Perm (List.range sims.length) ∧
  idx.Pairwise (fun a b => sims.getD a 0 ≤ sims.getD b 0)

/-- `top_idx = sims.argsort()[::-1][:k]` (main.py line 152): reverse the
ascending argsort result `idx` and keep the first `k` indices. -/
def topIdxOf (idx : List ℕ) (k : ℕ) : List ℕ :=
  (idx.reverse).take k

/-- `retrieve_chunks_for_doc` (main.py lines 141–170) from the point where
the cosine-similarity row `sims` and its argsort `idx` are available: walk
`top_idx` with 1-based ranks, skip out-of-range indices, and build a Hit
per index.  The `sims` row comes from the external sklearn TF-IDF cosine
computation and `idx` from NumPy's argsort; both are passed in, `idx`
constrained by `validArgsort` where an argument is needed. -/
def retrieve_chunks_for_doc (doc_id : String) (chunks : List MemChunk)
    (sims : List ℚ) (idx : List ℕ) (k : ℕ) : List Hit :=
  (List.enumFrom 1 (topIdxOf idx k)).filterMap (fun ri =>
    if h : ri.2 < chunks.length then
      some { label := ri.1
             doc_id := doc_id
             score := sims.getD ri.2 0
             text := (chunks.get ⟨ri.2, h⟩).text
             page := (chunks.get ⟨ri.2, h⟩).page }
    else none)

/-! ### Chat boundary (`chat_with_pdf`, main.py lines 548–644) -/

/-- Entry of `DOC_META`: `{"filename": ..., "num_pages": ...}`. -/
structure Meta where
  filename : List Char
  num_pages : ℕ
deriving DecidableEq, Repr

/-- Citation record built for the response `sources` list
(main.py lines 630–642). -/
structure Source where
  label : ℕ
  doc_id : String
  filename : List Char
  page : ℕ
  score : ℚ
  excerpt : List Char
deriving DecidableEq, Repr

/-- `ChatRequest` (main.py lines 251–258).  `history` is omitted: it only
feeds the prompt text sent to the external generator. -/
structure ChatReq where
  doc_ids : List String
  doc_id : Option String
  message : List Char
  mode : String
  lang : String
deriving DecidableEq, Repr

/-- JSON object returned by `/chat`: answer text, citation list, resolved
answer language. -/
structure ChatResponse where
  answer : List Char
  sources : List Source
  answer_lang : String
deriving DecidableEq, Repr

/-- Lower-case of an ASCII language parameter, with Python `strip()`:
models `(req.lang or "auto").strip().lower()`. -/
def normLangParam (s : String) : String :=
  String.mk (pyStrip (s.data.map Char.toLower))

/-- Resolution of the answer language (main.py lines 556–561): normalize
`req.lang`, fall back to `"auto"` on anything but `auto`/`ar`/`en`, and
resolve `auto` to the detected language of the user message. -/
def resolve_answer_lang (lang : String) (message : List Char) : String :=
  let user_lang := detect_lang message
  let al := normLangParam (if lang = "" then "auto" else lang)
  let al := if al ≠ "auto" ∧ al ≠ "ar" ∧ al ≠ "en" then "auto" else al
  if al = "auto" then user_lang else al

/-- Raw requested document ids before store filtering (main.py line 550):
`req.doc_ids if req.doc_ids else ([req.doc_id] if req.doc_id else [])`,
where an absent or empty `doc_id` is falsy. -/
def chat_raw_doc_ids (req : ChatReq) : List String :=
  if req.doc_ids ≠ [] then req.doc_ids
  else match req.doc_id with
       | some d => if d = "" then [] else [d]
       | none => []

/-- Document-id normalization of `/chat` (main.py lines 550–551): keep only
non-empty ids that are keys of the global `DOC_STORE`. -/
def chat_doc_ids (req : ChatReq) (store_keys : List String) : List String :=
  (chat_raw_doc_ids req).filter (fun d => d ≠ "" && store_keys.contains d)

/-- Answer returned when no requested document id is loaded
(main.py line 554). -/
def no_docs_msg : List Char := "No valid doc_id(s). Upload a PDF first.".data

/-- Arabic no-relevant-content answer (main.py line 568). -/
def ar_no_content_msg : List Char :=
  "لم أجد محتوى مناسبًا داخل الـ PDF(s) المحددة للإجابة على سؤالك.".data

/-- English no-relevant-content answer (main.py line 569). -/
def en_no_content_msg : List Char :=
  "I couldn't find relevant content in the selected PDF(s).".data

/-- Minimum-relevance threshold 0.05 of the chat boundary
(main.py line 566); the float is modelled exactly. -/
def min_score_threshold : ℚ := mkRat 5 100

/-- No-relevant-content response (main.py lines 567–569): Arabic message
when the resolved answer language is `"ar"`, English otherwise; the citation
list is empty in both cases. -/
def no_content_response (answer_lang : String) : ChatResponse :=
  if answer_lang = "ar" then
    { answer := ar_no_content_msg, sources := [], answer_lang := "ar" }
  else
    { answer := en_no_content_msg, sources := [], answer_lang := "en" }

/-- Excerpt shown in a citation (main.py line 640):
`(text[:350]).replace("\n", " ").strip()`. -/
def excerptOf (text : List Char) : List Char :=
  pyStrip ((text.take 350).map (fun c => if c = '\n' then ' ' else c))

/-- Citation built from a hit (main.py lines 630–642); the filename comes
from `DOC_META` with `""` as default. -/
def toSource (doc_meta : List (String × Meta)) (h : Hit) : Source :=
  { label := h.label
    doc_id := h.doc_id
    filename := (((doc_meta.find? (fun p => p.1 = h.doc_id)).map (fun p => p.2.filename)).getD [])
    page := h.page
    score := h.score
    excerpt := excerptOf h.text }

/-- Retrieval query used by `/chat` (main.py line 563): the user message
after optional translation, computed before retrieval. -/
def chat_retrieval_query (llm : List Char → List Char) (req : ChatReq) : List Char :=
  translate_to_english_if_needed llm req.message

/-- `chat_with_pdf` (main.py lines 548–644) after the external calls are
abstracted: `retrieved` is the output of
`merge_retrieval(doc_ids, retrieval_query, 7, 5)` and `llm_answer` the
external generator's reply to the context prompt.  The boolean records
whether the generator was invoked with passage context (the only branch
that builds the context prompt and calls `call_llm`).  Branches: unknown
ids → fixed English answer; empty retrieval or top score `< 0.05` → the
localized no-relevant-content response; otherwise every retrieved hit is
exported as a citation, in order. -/
def chat_with_pdf (store_keys : List String) (doc_meta : List (String × Meta))
    (req : ChatReq) (retrieved : List Hit) (llm_answer : List Char) :
    ChatResponse × Bool :=
  let dids := chat_doc_ids req store_keys
  if dids = [] then
    ({ answer := no_docs_msg, sources := [], answer_lang := "en" }, false)
  else
    let answer_lang := resolve_answer_lang req.lang req.message
    match retrieved with
    | [] => (no_content_response answer_lang, false)
    | h :: _ =>
      if h.score < min_score_threshold then
        (no_content_response answer_lang, false)
      else
        ({ answer := llm_answer
           sources := retrieved.map (toSource doc_meta)
           answer_lang := answer_lang }, true)

/-! ### Stores, database rows, and the docs/deletion endpoints
(main.py lines 37–52, 88–93, 423–495) -/

/-- Row of the `documents` table (main.py lines 37–44).  Timestamps are
modelled as naturals ordered like `created_at`. -/
structure DocRow where
  doc_id : String
  filename : List Char
  num_pages : ℕ
  full_text : List Char
  pdf_bytes : List ℕ
  created_at : ℕ
deriving DecidableEq, Repr

/-- Row of the `chunks` table (main.py lines 47–52). -/
structure ChunkRow where
  rid : ℕ
  doc_id : String
  page : ℕ
  text : List Char
deriving DecidableEq, Repr

/-- Lookup in a dict modelled as an association list: `m.get(k)`. -/
def dget {β : Type} (m : List (String × β)) (k : String) : Option β :=
  (m.find? (fun p => p.1 = k)).map (fun p => p.2)

/-- Key removal from a dict: `m.pop(k, None)`. -/
def dpop {β : Type} (m : List (String × β)) (k : String) : List (String × β) :=
  m.filter (fun p => ¬ p.1 = k)

/-- Key update of a dict: `m[k] = v`. -/
def dset {β : Type} (m : List (String × β)) (k : String) (v : β) :
    List (String × β) :=
  (k, v) :: dpop m k

/-- Global state: the six in-memory stores (main.py lines 88–93) and the two
database tables.  The `VEC_STORE` payload (a fitted sklearn vectorizer plus
matrix) is an external object; only its presence per key is observable to
the modelled operations, so it is a unit payload. -/
structure AppState where
  PDF_STORE : List (String × List ℕ)
  DOC_STORE : List (String × List Char)
  PAGE_STORE : List (String × List (List Char))
  CHUNK_STORE : List (String × List MemChunk)
  VEC_STORE : List (String × Unit)
  DOC_META : List (String × Meta)
  documents : List DocRow
  chunks : List ChunkRow
deriving DecidableEq, Repr

/-- Response body of a successful `DELETE /docs/{doc_id}`
(main.py line 495). -/
structure DeleteResp where
  ok : Bool
  doc_id : String
deriving DecidableEq, Repr

/-- `delete_doc` (main.py lines 477–495): 404 (`none`) when no `documents`
row matches; otherwise delete the document's `chunks` and `documents` rows,
pop the id from all six in-memory stores, and return `ok` with the id. -/
def delete_doc (st : AppState) (did : String) : Option (AppState × DeleteResp) :=
  match st.documents.find? (fun d => d.doc_id = did) with
  | none => none
  | some _ =>
    some ({ st with
              documents := st.documents.filter (fun d => ¬ d.doc_id = did)
              chunks := st.chunks.filter (fun c => ¬ c.doc_id = did)
              PDF_STORE := dpop st.PDF_STORE did
              DOC_STORE := dpop st.DOC_STORE did
              PAGE_STORE := dpop st.PAGE_STORE did
              CHUNK_STORE := dpop st.CHUNK_STORE did
              VEC_STORE := dpop st.VEC_STORE did
              DOC_META := dpop st.DOC_META did },
          { ok := true, doc_id := did })

/-- Summary row returned by `GET /docs` (main.py lines 453–461). -/
structure DocSummary where
  doc_id : String
  filename : List Char
  num_pages : ℕ
  created_at : ℕ
deriving DecidableEq, Repr

/-- Summary of one `documents` row as serialized by `GET /docs`
(main.py lines 453–460). -/
def summarizeDoc (d : DocRow) : DocSummary :=
  { doc_id := d.doc_id
    filename := d.filename
    num_pages := d.num_pages
    created_at := d.created_at }

/-- `list_docs` (main.py lines 450–461): every `documents` row, ordered by
`created_at` descending, summarized.  The endpoint takes no client
identity; the query is unscoped. -/
def list_docs (documents : List DocRow) : List DocSummary :=
  (List.insertionSort (fun a b => b.created_at ≤ a.created_at) documents).map
    summarizeDoc

/-- `get_pdf` (main.py lines 423–446): serve cached bytes if present (with
the `DOC_META` filename, default `"document.pdf"`); otherwise fall back to
the `documents` table, refreshing the caches; 404 (`none`) when the id is
absent from both. -/
def get_pdf (st : AppState) (did : String) :
    Option ((List ℕ × List Char) × AppState) :=
  match dget st.PDF_STORE did with
  | some pdf =>
    let filename := (((dget st.DOC_META did).map Meta.filename).getD "document.pdf".data)
    some ((pdf, filename), st)
  | none =>
    match st.documents.find? (fun d => d.doc_id = did) with
    | none => none
    | some d =>
      some ((d.pdf_bytes, d.filename),
            { st with
                PDF_STORE := dset st.PDF_STORE did d.pdf_bytes
                DOC_META := dset st.DOC_META did
                  { filename := d.filename, num_pages := d.num_pages } })

/-! ### Reranker modelled from the spec

The specification (§4.5) describes a `rerank(query, hits, alpha)` step with
a lexical-overlap boost; `src/backend/main.py` contains no such code — the
merged hits go straight from `merge_retrieval` to the threshold check (line
566).  The following definitions follow the spec's words and exist only to
compare the described step against the pipeline. -/

/-- Modelled from the spec: token characters of the lexical tokenizer (§4.5,
§9) — alphanumeric, Latin and Arabic scripts both retained. -/
def isTokenChar (c : Char) : Bool :=
  c.isAlphanum || isArabicChar c

/-- Modelled from the spec: maximal runs of token characters, accumulator
`cur` holding the current run reversed. -/
def splitRunsAux (p : Char → Bool) : List Char → List Char → List (List Char)
  | [], cur => if cur = [] then [] else [cur.reverse]
  | c :: rest, cur =>
    if p c then splitRunsAux p rest (c :: cur)
    else if cur = [] then splitRunsAux p rest []
    else cur.reverse :: splitRunsAux p rest []

/-- Modelled from the spec (§4.5, §9): lower-case the text, split it into
maximal alphanumeric/Arabic runs, drop tokens shorter than 2, and collapse
to a set (first occurrences). -/
def tokenSet (s : List Char) : List (List Char) :=
  ((splitRunsAux isTokenChar (s.map Char.toLower) []).filter
    (fun t => 2 ≤ t.length)).dedup

/-- Modelled from the spec (§4.5): lexical-overlap boost
`|intersection| / max(6, |query tokens|)` over the two token sets. -/
def lexBoost (query text : List Char) : ℚ :=
  let q := tokenSet query
  let t := tokenSet text
  mkRat ((q.filter (fun w => t.contains w)).length) (max 6 q.length)

/-- Modelled from the spec (§4.5): `rerank(query, hits, alpha)` sets each
hit's score to `original + alpha * boost` and re-sorts descending by the
adjusted score (stable). -/
def specRerank (query : List Char) (hits : List Hit) (alpha : ℚ) : List Hit :=
  List.insertionSort (fun a b => b.score ≤ a.score)
    (hits.map (fun h => { h with score := h.score + alpha * lexBoost query h.text }))

/-! ### Lemmas about the chunking loop -/

theorem chunkLoop_eq_map (text : List Char) (L O : ℕ) :
    ∀ fuel i, chunkLoop text L O i fuel =
      (startsLoop text.length L O i fuel).map (fun s => (text.drop s).take L) := by
  intro fuel
  induction fuel with
  | zero => intro i; rfl
  | succ f ih =>
    intro i
    rw [chunkLoop, startsLoop]
    by_cases h : i < text.length
    · simp only [if_pos h, List.map_cons, ih]
    · simp only [if_neg h, List.map_nil]

theorem chunkFrom_eq_map (text : List Char) (L O i : ℕ) :
    chunkFrom text L O i =
      (startsFrom text.length L O i).map (fun s => (text.drop s).take L) :=
  chunkLoop_eq_map text L O (text.length - i) i

theorem startsLoop_mem (N L O : ℕ) :
    ∀ fuel i s, s ∈ startsLoop N L O i fuel → i ≤ s ∧ s < N := by
  intro fuel
  induction fuel with
  | zero => intro i s hs; simp [startsLoop] at hs
  | succ f ih =>
    intro i s hs
    rw [startsLoop] at hs
    by_cases h : i < N
    · rw [if_pos h, List.mem_cons] at hs
      rcases hs with rfl | hs
      · exact ⟨le_refl _, h⟩
      · have h2 := ih _ _ hs
        have h3 : 1 ≤ max 1 (L - O) := le_max_left _ _
        omega
    · rw [if_neg h] at hs; simp at hs

theorem startsLoop_cover (N L O : ℕ) :
    ∀ fuel i x, N - i ≤ fuel → i ≤ x → x < N →
      ∃ s ∈ startsLoop N L O i fuel, s ≤ x ∧ x < s + max 1 (L - O) := by
  intro fuel
  induction fuel with
  | zero => intro i x hf hix hx; omega
  | succ f ih =>
    intro i x hf hix hx
    have h : i < N := by omega
    rw [startsLoop, if_pos h]
    have hstep : 1 ≤ max 1 (L - O) := le_max_left _ _
    by_cases hnear : x < i + max 1 (L - O)
    · exact ⟨i, List.mem_cons_self _ _, hix, hnear⟩
    · obtain ⟨s, hs, h1, h2⟩ := ih (i + max 1 (L - O)) x (by omega) (by omega) hx
      exact ⟨s, List.mem_cons_of_mem _ hs, h1, h2⟩

theorem startsLoop_head? (N L O : ℕ) (f i : ℕ) :
    (startsLoop N L O i (f + 1)).head? = if i < N then some i else none := by
  rw [startsLoop]
  by_cases h : i < N
  · rw [if_pos h, if_pos h]; rfl
  · rw [if_neg h, if_neg h]; rfl

theorem startsLoop_chain (N L O : ℕ) :
    ∀ fuel i, List.Chain' (fun a b => b = a + max 1 (L - O) ∧ b < N)
      (startsLoop N L O i fuel) := by
  intro fuel
  induction fuel with
  | zero => intro i; exact List.chain'_nil
  | succ f ih =>
    intro i
    rw [startsLoop]
    by_cases h : i < N
    · rw [if_pos h, List.chain'_cons']
      refine ⟨?_, ih _⟩
      intro y hy
      cases f with
      | zero => simp [startsLoop] at hy
      | succ g =>
        rw [startsLoop_head?] at hy
        by_cases h2 : i + max 1 (L - O) < N
        · rw [if_pos h2] at hy
          simp only [Option.mem_def, Option.some.injEq] at hy
          exact ⟨hy.symm, hy ▸ h2⟩
        · rw [if_neg h2] at hy; simp at hy
    · rw [if_neg h]; exact List.chain'_nil

theorem chunkLoop_eq_nil_iff (text : List Char) (L O : ℕ) :
    ∀ fuel i, text.length - i ≤ fuel →
      (chunkLoop text L O i fuel = [] ↔ text.length ≤ i) := by
  intro fuel
  induction fuel with
  | zero => intro i hf; simpa [chunkLoop] using by omega
  | succ f ih =>
    intro i hf
    rw [chunkLoop]
    by_cases h : i < text.length
    · rw [if_pos h]; simp; omega
    · rw [if_neg h]; simp; omega

/-- Property asserted by the specification for the chunker on one page of
length `N` (§8, first bullet): the spans cover `[0, N)` with no gaps, every
passage has length at most `L`, and each pair of consecutive passages
overlaps by exactly `O` characters — the only tolerated exception being the
pair that involves the final (possibly shorter) passage, i.e. the pairs
`(j, j+1)` with `j + 1` not the last index must overlap by exactly `O`. -/
def chunkSpanClaim (N L O : ℕ) : Prop :=
  (∀ x < N, ∃ p ∈ pageSpans N L O, p.1 ≤ x ∧ x < p.2) ∧
  (∀ p ∈ pageSpans N L O, p.2 - p.1 ≤ L) ∧
  (∀ j < (pageSpans N L O).length - 2,
    ((pageSpans N L O).getD j (0, 0)).2 - ((pageSpans N L O).getD (j + 1) (0, 0)).1 = O)

/-- C3 (counterexample): on the page `"abcdef"` with chunk length `L = 4`
and overlap `O = 3` (`0 ≤ O < L`), the chunker emits six passages with
spans `(0,4) (1,5) (2,6) (3,6) (4,6) (5,6)`; the consecutive pair at
positions 3 and 4 — neither of which is the final passage — overlaps by
`2 ≠ O = 3` characters, so the claimed "exactly `O` except the final
passage" overlap property is false. -/
theorem C3_cex :
    ("abcdef".data).length = 6 ∧
    chunk_pages ["abcdef".data] 4 3 =
      [("abcd".data, 1), ("bcde".data, 1), ("cdef".data, 1),
       ("def".data, 1), ("ef".data, 1), ("f".data, 1)] ∧
    pageSpans 6 4 3 = [(0, 4), (1, 5), (2, 6), (3, 6), (4, 6), (5, 6)] ∧
    ¬ chunkSpanClaim 6 4 3 := by
  refine ⟨rfl, by decide, by decide, ?_⟩
  intro h
  have h3 := h.2.2 3 (by decide)
  revert h3
  decide

/-- C3 (amended): for `0 ≤ O < L` the emitted passages are exactly the
windows at the loop's start offsets, their spans cover `[0, N)` with no
gaps and each has length at most `L`, and consecutive passages at spans
`p, q` overlap by exactly `min O (N - q.1)` characters: this equals `O`
whenever the earlier window is unclipped, but is smaller for every pair
whose earlier passage is clipped by the page end — not only for the pair
involving the final passage. -/
theorem C3_amended (text : List Char) (L O : ℕ) (hO : O < L) :
    (chunkFrom text L O 0 =
      (pageSpans text.length L O).map (fun p => (text.drop p.1).take (p.2 - p.1))) ∧
    (∀ x < text.length, ∃ p ∈ pageSpans text.length L O, p.1 ≤ x ∧ x < p.2) ∧
    (∀ p ∈ pageSpans text.length L O, p.2 - p.1 ≤ L) ∧
    List.Chain' (fun p q => p.2 - q.1 = min O (text.length - q.1))
      (pageSpans text.length L O) := by
  have hstep : max 1 (L - O) = L - O := by omega
  have hstepL : max 1 (L - O) ≤ L := by omega
  refine ⟨?_, ?_, ?_, ?_⟩
  · rw [chunkFrom_eq_map, pageSpans, List.map_map]
    refine List.map_congr_left ?_
    intro s _
    simp only [Function.comp]
    rw [List.take_eq_take]
    simp only [List.length_drop]
    omega
  · intro x hx
    obtain ⟨s, hs, h1, h2⟩ :=
      startsLoop_cover text.length L O text.length 0 x (by omega) (Nat.zero_le x) hx
    refine ⟨(s, min (s + L) text.length), ?_, ?_, ?_⟩
    · exact List.mem_map_of_mem _ hs
    · exact h1
    · simp only [lt_min_iff]
      omega
  · intro p hp
    obtain ⟨s, _, rfl⟩ := List.mem_map.mp hp
    simp only
    omega
  · rw [pageSpans]
    rw [List.chain'_map]
    refine (startsLoop_chain text.length L O _ 0).imp ?_
    intro a b hab
    obtain ⟨rfl, hbN⟩ := hab
    simp only
    omega

/-- C4 (counterexample): the page `"ab"` has (normalized) length `2`, which
is strictly shorter than the chunk length `L = 3`, yet with overlap
`O = 2` the chunker emits two passages (`"ab"` then `"b"`), not exactly
one: the advance step `max 1 (L - O) = 1` is smaller than the page
length, so the loop re-enters the page. -/
theorem C4_cex :
    ("ab".data).length < 3 ∧
    chunk_pages ["ab".data] 3 2 = [("ab".data, 1), ("b".data, 1)] ∧
    (chunk_pages ["ab".data] 3 2).length ≠ 1 := by
  exact ⟨by decide, by decide, by decide⟩

/-- C4 (amended): for a page whose normalized text is non-blank and
strictly shorter than `L`, the first emitted passage is the whole page —
but it is the only passage exactly when the page length is at most the
advance step `max 1 (L - O)`; a page longer than the step (though shorter
than `L`) yields further trailing passages. -/
theorem C4_amended (page : List Char) (L O : ℕ)
    (hb : isBlank (normalizePage page) = false)
    (hN : (normalizePage page).length < L) :
    (chunk_pages [page] L O).head? = some (normalizePage page, 1) ∧
    ((chunk_pages [page] L O).length = 1 ↔
      (normalizePage page).length ≤ max 1 (L - O)) := by
  have h0 : chunk_pages [page] L O =
      (chunkFrom (normalizePage page) L O 0).map (fun c => (c, 1)) := by
    simp [chunk_pages, hb, List.flatMap]
  set t := normalizePage page with ht
  have hN0 : 0 < t.length := by
    rcases Nat.eq_zero_or_pos t.length with h | h
    · exfalso
      have : t = [] := List.length_eq_zero.mp h
      rw [this] at hb
      simp [isBlank] at hb
    · exact h
  obtain ⟨m, hm⟩ : ∃ m, t.length = m + 1 := ⟨t.length - 1, by omega⟩
  have hsplit : chunkFrom t L O 0 =
      t :: chunkLoop t L O (max 1 (L - O)) m := by
    rw [chunkFrom, Nat.sub_zero, hm, chunkLoop, if_pos (by omega)]
    rw [List.drop_zero, List.take_of_length_le (by omega), Nat.zero_add]
  constructor
  · rw [h0, hsplit]; rfl
  · rw [h0, hsplit]
    simp only [List.map_cons, List.length_cons, List.length_map,
      Nat.add_left_eq_self, List.length_eq_zero]
    rw [chunkLoop_eq_nil_iff t L O m (max 1 (L - O)) (by omega)]

/-- Witness for `C3_amended` at the page `"abcde"` with `L = 3`, `O = 1`. -/
theorem C3_wit :
    (1 < 3) ∧
    ((chunkFrom "abcde".data 3 1 0 =
      (pageSpans ("abcde".data).length 3 1).map
        (fun p => (("abcde".data).drop p.1).take (p.2 - p.1))) ∧
    (∀ x < ("abcde".data).length,
      ∃ p ∈ pageSpans ("abcde".data).length 3 1, p.1 ≤ x ∧ x < p.2) ∧
    (∀ p ∈ pageSpans ("abcde".data).length 3 1, p.2 - p.1 ≤ 3) ∧
    List.Chain' (fun p q => p.2 - q.1 = min 1 (("abcde".data).length - q.1))
      (pageSpans ("abcde".data).length 3 1)) :=
  ⟨by decide, C3_amended "abcde".data 3 1 (by decide)⟩

/-- Witness for `C4_amended` at the page `"hi"` with the default parameters
`L = 1200`, `O = 200`. -/
theorem C4_wit :
    isBlank (normalizePage "hi".data) = false ∧
    (normalizePage "hi".data).length < 1200 ∧
    ((chunk_pages ["hi".data] 1200 200).head? = some (normalizePage "hi".data, 1) ∧
    ((chunk_pages ["hi".data] 1200 200).length = 1 ↔
      (normalizePage "hi".data).length ≤ max 1 (1200 - 200))) :=
  ⟨by decide, by decide, C4_amended "hi".data 1200 200 (by decide) (by decide)⟩

/-! ### Lemmas about the retriever's ordering -/

/-- Order claimed by the specification for retrieval output indices:
descending score, ties broken by original passage order (earlier passage
first). -/
def tieEarlierOrder (sims : List ℚ) (a b : ℕ) : Prop :=
  sims.getD b 0 < sims.getD a 0 ∨ (sims.getD a 0 = sims.getD b 0 ∧ a < b)

instance tieEarlierOrderDecidable (sims : List ℚ) : DecidableRel (tieEarlierOrder sims) :=
  fun a b => inferInstanceAs
    (Decidable (sims.getD b 0 < sims.getD a 0 ∨ (sims.getD a 0 = sims.getD b 0 ∧ a < b)))

theorem topIdxOf_mem {sims : List ℚ} {idx : List ℕ} {k i : ℕ}
    (hperm : idx.Perm (List.range sims.length)) (h : i ∈ topIdxOf idx k) :
    i < sims.length := by
  have h1 : i ∈ idx.reverse := (List.take_sublist _ _).mem h
  exact List.mem_range.mp (hperm.mem_iff.mp (List.mem_reverse.mp h1))

theorem retrieve_scores (d : String) (chunks : List MemChunk) (sims : List ℚ) :
    ∀ (l : List ℕ) (n : ℕ), (∀ i ∈ l, i < chunks.length) →
      ((List.enumFrom n l).filterMap (fun ri =>
        if h : ri.2 < chunks.length then
          some { label := ri.1
                 doc_id := d
                 score := sims.getD ri.2 0
                 text := (chunks.get ⟨ri.2, h⟩).text
                 page := (chunks.get ⟨ri.2, h⟩).page }
        else none)).map Hit.score = l.map (fun i => sims.getD i 0) := by
  intro l
  induction l with
  | nil => intro n _; rfl
  | cons i t ih =>
    intro n hbound
    have hi : i < chunks.length := hbound i (List.mem_cons_self _ _)
    rw [List.enumFrom_cons, List.filterMap_cons]
    simp only [dif_pos hi, List.map_cons]
    rw [ih (n + 1) (fun j hj => hbound j (List.mem_cons_of_mem _ hj))]

/-- C5 (counterexample): two passages tie at cosine score `1/2`.  On this
two-element row NumPy's argsort provably uses its stable insertion-sort
path and returns `[0, 1]` (a `validArgsort` of the row); the code's
`[::-1]` reversal then yields `[1, 0]`, so the retriever returns the LATER
passage (page 2) first — the claimed tie-break, that the hit whose passage
occurs earlier appears first, is false on this realizable input. -/
theorem C5_cex :
    validArgsort [mkRat 1 2, mkRat 1 2] [0, 1] ∧
    topIdxOf [0, 1] 2 = [1, 0] ∧
    (retrieve_chunks_for_doc "d" [⟨"a".data, 1⟩, ⟨"b".data, 2⟩]
      [mkRat 1 2, mkRat 1 2] [0, 1] 2).map Hit.page = [2, 1] ∧
    (retrieve_chunks_for_doc "d" [⟨"a".data, 1⟩, ⟨"b".data, 2⟩]
      [mkRat 1 2, mkRat 1 2] [0, 1] 2).map Hit.score = [mkRat 1 2, mkRat 1 2] ∧
    ¬ List.Pairwise (tieEarlierOrder [mkRat 1 2, mkRat 1 2]) (topIdxOf [0, 1] 2) := by
  refine ⟨⟨by decide, by decide⟩, by decide, by decide, by decide, by decide⟩

/-- C5 (amended): for every argsort result the program can observe (any
permutation of the indices that is ascending in score — NumPy's unstable
default sort guarantees nothing more about ties), `retrieve_chunks_for_doc`
returns at most `k` hits whose scores are those of the reversed, truncated
argsort, in weakly descending order.  No tie-break direction is guaranteed:
on ties the order is whatever the reversal of the argsort yields, and in
NumPy's stable small-row regime this places the LATER passage first (see
the counterexample), the opposite of the claimed earlier-first order. -/
theorem C5_amended (d : String) (chunks : List MemChunk) (sims : List ℚ)
    (idx : List ℕ) (k : ℕ) (hvalid : validArgsort sims idx)
    (hlen : sims.length = chunks.length) :
    (retrieve_chunks_for_doc d chunks sims idx k).length ≤ k ∧
    (retrieve_chunks_for_doc d chunks sims idx k).map Hit.score =
      (topIdxOf idx k).map (fun i => sims.getD i 0) ∧
    List.Pairwise (fun a b => b.score ≤ a.score)
      (retrieve_chunks_for_doc d chunks sims idx k) := by
  obtain ⟨hperm, hsorted⟩ := hvalid
  have hbound : ∀ i ∈ topIdxOf idx k, i < chunks.length := by
    intro i hi
    exact hlen ▸ topIdxOf_mem hperm hi
  have hscores : (retrieve_chunks_for_doc d chunks sims idx k).map Hit.score =
      (topIdxOf idx k).map (fun i => sims.getD i 0) := by
    rw [retrieve_chunks_for_doc]
    exact retrieve_scores d chunks sims (topIdxOf idx k) 1 hbound
  have hlen2 : (retrieve_chunks_for_doc d chunks sims idx k).length ≤ k := by
    have h1 := congrArg List.length hscores
    rw [List.length_map, List.length_map] at h1
    rw [h1, topIdxOf]
    exact List.length_take_le _ _
  refine ⟨hlen2, hscores, ?_⟩
  have hp : List.Pairwise (fun i j => sims.getD j 0 ≤ sims.getD i 0) (topIdxOf idx k) := by
    refine List.Pairwise.sublist (List.take_sublist _ _) ?_
    exact List.pairwise_reverse.mpr hsorted
  have hp2 : List.Pairwise (fun x y => y ≤ x)
      ((retrieve_chunks_for_doc d chunks sims idx k).map Hit.score) := by
    rw [hscores]
    exact List.pairwise_map.mpr hp
  exact List.pairwise_map.mp hp2

/-- Witness for `C5_amended`: two chunks with distinct scores, the (unique)
valid argsort `[1, 0]` of the row, `k = 5`. -/
theorem C5_wit :
    validArgsort [mkRat 2 1, mkRat 1 1] [1, 0] ∧
    ([mkRat 2 1, mkRat 1 1] : List ℚ).length =
      ([⟨"x".data, 1⟩, ⟨"y".data, 2⟩] : List MemChunk).length ∧
    ((retrieve_chunks_for_doc "doc" [⟨"x".data, 1⟩, ⟨"y".data, 2⟩]
        [mkRat 2 1, mkRat 1 1] [1, 0] 5).length ≤ 5 ∧
    (retrieve_chunks_for_doc "doc" [⟨"x".data, 1⟩, ⟨"y".data, 2⟩]
        [mkRat 2 1, mkRat 1 1] [1, 0] 5).map Hit.score =
      (topIdxOf [1, 0] 5).map (fun i => ([mkRat 2 1, mkRat 1 1] : List ℚ).getD i 0) ∧
    List.Pairwise (fun a b => b.score ≤ a.score)
      (retrieve_chunks_for_doc "doc" [⟨"x".data, 1⟩, ⟨"y".data, 2⟩]
        [mkRat 2 1, mkRat 1 1] [1, 0] 5)) :=
  ⟨⟨by decide, by decide⟩, by decide,
   C5_amended "doc" [⟨"x".data, 1⟩, ⟨"y".data, 2⟩] [mkRat 2 1, mkRat 1 1] [1, 0] 5
     ⟨by decide, by decide⟩ (by decide)⟩

/-! ### Chat boundary claims -/

theorem insertionSort_pair {α : Type} (r : α → α → Prop) [DecidableRel r]
    (a b : α) (h : ¬ r a b) : List.insertionSort r [a, b] = [b, a] := by
  simp [List.insertionSort, List.orderedInsert, if_neg h]

/-- Per-page cap claimed for the diversifier: no more than `p` citations
share one (document, page) pair. -/
def pageCapOK (p : ℕ) (srcs : List Source) : Prop :=
  ∀ s ∈ srcs, srcs.countP (fun t => t.doc_id = s.doc_id && t.page = s.page) ≤ p

instance pageCapOKDecidable (p : ℕ) (srcs : List Source) :
    Decidable (pageCapOK p srcs) :=
  inferInstanceAs
    (Decidable (∀ s ∈ srcs, srcs.countP (fun t => t.doc_id = s.doc_id && t.page = s.page) ≤ p))

/-- C7: when the requested ids are valid but retrieval yields no hits or a
top score strictly below `0.05`, `/chat` returns the no-relevant-content
response localized to the resolved answer language, with an empty citation
list, and the generator is never invoked with passage context (second
component `false`). -/
theorem C7_thm (store_keys : List String) (doc_meta : List (String × Meta))
    (req : ChatReq) (retrieved : List Hit) (llm_answer : List Char)
    (hdocs : chat_doc_ids req store_keys ≠ [])
    (hlow : ∀ h ∈ retrieved.head?, h.score < min_score_threshold) :
    chat_with_pdf store_keys doc_meta req retrieved llm_answer =
      (no_content_response (resolve_answer_lang req.lang req.message), false) ∧
    (no_content_response (resolve_answer_lang req.lang req.message)).sources = [] := by
  constructor
  · simp only [chat_with_pdf]
    rw [if_neg hdocs]
    cases retrieved with
    | nil => rfl
    | cons h t =>
      have hh : h.score < min_score_threshold := hlow h (by simp)
      simp only [if_pos hh]
  · rw [no_content_response]
    by_cases h : resolve_answer_lang req.lang req.message = "ar"
    · rw [if_pos h]
    · rw [if_neg h]

/-- Witness for `C7_thm`: one valid id, a single hit scoring `1/100`. -/
theorem C7_wit :
    (chat_doc_ids ⟨["a"], none, "q".data, "strict", "en"⟩ ["a"] ≠ []) ∧
    (∀ h ∈ ([⟨1, "a", mkRat 1 100, "t".data, 3⟩] : List Hit).head?,
      h.score < min_score_threshold) ∧
    (chat_with_pdf ["a"] [] ⟨["a"], none, "q".data, "strict", "en"⟩
        [⟨1, "a", mkRat 1 100, "t".data, 3⟩] "OK".data =
      (no_content_response
        (resolve_answer_lang "en" "q".data), false) ∧
    (no_content_response (resolve_answer_lang "en" "q".data)).sources = []) :=
  ⟨by decide, by decide,
    C7_thm ["a"] [] ⟨["a"], none, "q".data, "strict", "en"⟩
      [⟨1, "a", mkRat 1 100, "t".data, 3⟩] "OK".data (by decide) (by decide)⟩

/-- C1 (counterexample): three merged hits sharing the single (document,
page) pair `("d", 4)`, all scoring `1/2`, are all exported as citations by
`/chat` — so for diversification parameters `max_per_page = 2` (and any
`max_per_doc ≥ 3`, `k ≥ 3`) the claimed per-page cap is violated: no
diversification step exists between the merge and the export. -/
theorem C1_cex :
    ((chat_with_pdf ["d"] [("d", ⟨"doc.pdf".data, 9⟩)]
        ⟨["d"], none, "q".data, "strict", "en"⟩
        [⟨1, "d", mkRat 1 2, "t1".data, 4⟩, ⟨2, "d", mkRat 1 2, "t2".data, 4⟩,
         ⟨3, "d", mkRat 1 2, "t3".data, 4⟩] "OK".data).1.sources.length = 3) ∧
    (∀ s ∈ (chat_with_pdf ["d"] [("d", ⟨"doc.pdf".data, 9⟩)]
        ⟨["d"], none, "q".data, "strict", "en"⟩
        [⟨1, "d", mkRat 1 2, "t1".data, 4⟩, ⟨2, "d", mkRat 1 2, "t2".data, 4⟩,
         ⟨3, "d", mkRat 1 2, "t3".data, 4⟩] "OK".data).1.sources,
      s.doc_id = "d" ∧ s.page = 4) ∧
    ¬ pageCapOK 2 (chat_with_pdf ["d"] [("d", ⟨"doc.pdf".data, 9⟩)]
        ⟨["d"], none, "q".data, "strict", "en"⟩
        [⟨1, "d", mkRat 1 2, "t1".data, 4⟩, ⟨2, "d", mkRat 1 2, "t2".data, 4⟩,
         ⟨3, "d", mkRat 1 2, "t3".data, 4⟩] "OK".data).1.sources := by
  refine ⟨by decide, by decide, by decide⟩

/-- C1 (amended): `/chat` applies no diversification: whenever the
threshold passes, the exported citation list is exactly the merged hit list
in merge order — same length, same (document, page) sequence — bounded only
by the merger's `top_k_total = 7` truncation upstream. -/
theorem C1_amended (store_keys : List String) (doc_meta : List (String × Meta))
    (req : ChatReq) (h : Hit) (t : List Hit) (llm_answer : List Char)
    (hdocs : chat_doc_ids req store_keys ≠ [])
    (hhigh : ¬ h.score < min_score_threshold) :
    (chat_with_pdf store_keys doc_meta req (h :: t) llm_answer).1.sources =
      (h :: t).map (toSource doc_meta) ∧
    (chat_with_pdf store_keys doc_meta req (h :: t) llm_answer).1.sources.map
        (fun s => (s.doc_id, s.page)) =
      (h :: t).map (fun x => (x.doc_id, x.page)) ∧
    (chat_with_pdf store_keys doc_meta req (h :: t) llm_answer).1.sources.length =
      (h :: t).length := by
  have h1 : (chat_with_pdf store_keys doc_meta req (h :: t) llm_answer).1.sources =
      (h :: t).map (toSource doc_meta) := by
    simp only [chat_with_pdf]
    rw [if_neg hdocs]
    simp only [if_neg hhigh]
  refine ⟨h1, ?_, ?_⟩
  · rw [h1, List.map_map]
    rfl
  · rw [h1, List.length_map]

/-- Witness for `C1_amended`: one valid id and two hits above threshold. -/
theorem C1_wit :
    (chat_doc_ids ⟨["d"], none, "q".data, "strict", "en"⟩ ["d"] ≠ []) ∧
    (¬ (⟨1, "d", mkRat 1 2, "t1".data, 4⟩ : Hit).score < min_score_threshold) ∧
    ((chat_with_pdf ["d"] [] ⟨["d"], none, "q".data, "strict", "en"⟩
        ([⟨1, "d", mkRat 1 2, "t1".data, 4⟩, ⟨2, "d", mkRat 1 3, "t2".data, 5⟩] : List Hit)
        "OK".data).1.sources =
      (([⟨1, "d", mkRat 1 2, "t1".data, 4⟩, ⟨2, "d", mkRat 1 3, "t2".data, 5⟩] : List Hit)).map
        (toSource []) ∧
    (chat_with_pdf ["d"] [] ⟨["d"], none, "q".data, "strict", "en"⟩
        ([⟨1, "d", mkRat 1 2, "t1".data, 4⟩, ⟨2, "d", mkRat 1 3, "t2".data, 5⟩] : List Hit)
        "OK".data).1.sources.map (fun s => (s.doc_id, s.page)) =
      (([⟨1, "d", mkRat 1 2, "t1".data, 4⟩, ⟨2, "d", mkRat 1 3, "t2".data, 5⟩] : List Hit)).map
        (fun x => (x.doc_id, x.page)) ∧
    (chat_with_pdf ["d"] [] ⟨["d"], none, "q".data, "strict", "en"⟩
        ([⟨1, "d", mkRat 1 2, "t1".data, 4⟩, ⟨2, "d", mkRat 1 3, "t2".data, 5⟩] : List Hit)
        "OK".data).1.sources.length =
      (([⟨1, "d", mkRat 1 2, "t1".data, 4⟩, ⟨2, "d", mkRat 1 3, "t2".data, 5⟩] : List Hit)).length) :=
  ⟨by decide, by decide,
    C1_amended ["d"] [] ⟨["d"], none, "q".data, "strict", "en"⟩
      ⟨1, "d", mkRat 1 2, "t1".data, 4⟩ [⟨2, "d", mkRat 1 3, "t2".data, 5⟩]
      "OK".data (by decide) (by decide)⟩

/-- C6 (counterexample): two merged hits with equal score `1/2`, the second
overlapping the query `"kangaroo fox"` lexically (`boost = 2/6`) and the
first not at all (`boost = 0`).  The rerank step described by the
specification (here with `alpha = 1`) would reorder them to `[d2, d1]` with
adjusted scores, but `/chat` exports them in merge order `[d1, d2]` with
unchanged scores: no rerank step exists between merge and threshold. -/
theorem C6_cex :
    ((chat_with_pdf ["d1", "d2"] [] ⟨["d1", "d2"], none, "kangaroo fox".data, "strict", "en"⟩
        [⟨1, "d1", mkRat 1 2, "zebra zebra".data, 1⟩,
         ⟨2, "d2", mkRat 1 2, "the kangaroo and the fox".data, 2⟩]
        "OK".data).1.sources.map Source.doc_id = ["d1", "d2"]) ∧
    ((chat_with_pdf ["d1", "d2"] [] ⟨["d1", "d2"], none, "kangaroo fox".data, "strict", "en"⟩
        [⟨1, "d1", mkRat 1 2, "zebra zebra".data, 1⟩,
         ⟨2, "d2", mkRat 1 2, "the kangaroo and the fox".data, 2⟩]
        "OK".data).1.sources.map Source.score = [mkRat 1 2, mkRat 1 2]) ∧
    ((specRerank "kangaroo fox".data
        [⟨1, "d1", mkRat 1 2, "zebra zebra".data, 1⟩,
         ⟨2, "d2", mkRat 1 2, "the kangaroo and the fox".data, 2⟩] 1).map Hit.doc_id
      = ["d2", "d1"]) ∧
    ((chat_with_pdf ["d1", "d2"] [] ⟨["d1", "d2"], none, "kangaroo fox".data, "strict", "en"⟩
        [⟨1, "d1", mkRat 1 2, "zebra zebra".data, 1⟩,
         ⟨2, "d2", mkRat 1 2, "the kangaroo and the fox".data, 2⟩]
        "OK".data).1.sources.map Source.doc_id ≠
      (specRerank "kangaroo fox".data
        [⟨1, "d1", mkRat 1 2, "zebra zebra".data, 1⟩,
         ⟨2, "d2", mkRat 1 2, "the kangaroo and the fox".data, 2⟩] 1).map Hit.doc_id) := by
  have hrr : (specRerank "kangaroo fox".data
      [⟨1, "d1", mkRat 1 2, "zebra zebra".data, 1⟩,
       ⟨2, "d2", mkRat 1 2, "the kangaroo and the fox".data, 2⟩] 1).map Hit.doc_id
      = ["d2", "d1"] := by
    rw [specRerank]
    simp only [List.map_cons, List.map_nil]
    rw [insertionSort_pair]
    · rfl
    · show ¬ (_ ≤ _)
      simp only
      have hb1 : lexBoost "kangaroo fox".data "zebra zebra".data = 0 := by decide
      have hb2 : lexBoost "kangaroo fox".data "the kangaroo and the fox".data = mkRat 2 6 := by
        decide
      rw [hb1, hb2, Rat.mkRat_eq_div]
      norm_num
  refine ⟨by decide, by decide, hrr, ?_⟩
  rw [hrr]
  decide

/-- C6 (amended): `/chat` applies no rerank step: when the threshold
passes, the exported citations carry the merged hits' original scores in
merge order — no lexical-overlap boost is added and no re-sort by adjusted
score happens between the merge and the threshold/export. -/
theorem C6_amended (store_keys : List String) (doc_meta : List (String × Meta))
    (req : ChatReq) (h : Hit) (t : List Hit) (llm_answer : List Char)
    (hdocs : chat_doc_ids req store_keys ≠ [])
    (hhigh : ¬ h.score < min_score_threshold) :
    (chat_with_pdf store_keys doc_meta req (h :: t) llm_answer).1.sources.map
        Source.score = (h :: t).map Hit.score ∧
    (chat_with_pdf store_keys doc_meta req (h :: t) llm_answer).1.sources.map
        Source.label = (h :: t).map Hit.label := by
  have h1 : (chat_with_pdf store_keys doc_meta req (h :: t) llm_answer).1.sources =
      (h :: t).map (toSource doc_meta) := by
    simp only [chat_with_pdf]
    rw [if_neg hdocs]
    simp only [if_neg hhigh]
  constructor
  · rw [h1, List.map_map]; rfl
  · rw [h1, List.map_map]; rfl

/-- Witness for `C6_amended`: one valid id and one hit above threshold. -/
theorem C6_wit :
    (chat_doc_ids ⟨["d"], none, "q".data, "strict", "en"⟩ ["d"] ≠ []) ∧
    (¬ (⟨1, "d", mkRat 1 2, "t1".data, 4⟩ : Hit).score < min_score_threshold) ∧
    ((chat_with_pdf ["d"] [] ⟨["d"], none, "q".data, "strict", "en"⟩
        ([⟨1, "d", mkRat 1 2, "t1".data, 4⟩] : List Hit) "OK".data).1.sources.map
        Source.score = (([⟨1, "d", mkRat 1 2, "t1".data, 4⟩] : List Hit)).map Hit.score ∧
    (chat_with_pdf ["d"] [] ⟨["d"], none, "q".data, "strict", "en"⟩
        ([⟨1, "d", mkRat 1 2, "t1".data, 4⟩] : List Hit) "OK".data).1.sources.map
        Source.label = (([⟨1, "d", mkRat 1 2, "t1".data, 4⟩] : List Hit)).map Hit.label) :=
  ⟨by decide, by decide,
    C6_amended ["d"] [] ⟨["d"], none, "q".data, "strict", "en"⟩
      ⟨1, "d", mkRat 1 2, "t1".data, 4⟩ [] "OK".data (by decide) (by decide)⟩

/-- C8 (counterexample): the store holds only document `"a"`; a chat
request naming both `"a"` and the absent id `"zzz"` is answered normally —
the unknown id is silently filtered out of the request (main.py line 551)
and no not-found condition is surfaced. -/
theorem C8_cex :
    chat_doc_ids ⟨["a", "zzz"], none, "q".data, "strict", "en"⟩ ["a"] = ["a"] ∧
    ("zzz" ∈ (["a", "zzz"] : List String)) ∧
    ("zzz" ∉ (["a"] : List String)) ∧
    (chat_with_pdf ["a"] [] ⟨["a", "zzz"], none, "q".data, "strict", "en"⟩
      [⟨1, "a", mkRat 1 2, "t".data, 3⟩] "OK".data).2 = true ∧
    (chat_with_pdf ["a"] [] ⟨["a", "zzz"], none, "q".data, "strict", "en"⟩
      [⟨1, "a", mkRat 1 2, "t".data, 3⟩] "OK".data).1.answer = "OK".data ∧
    (chat_with_pdf ["a"] [] ⟨["a", "zzz"], none, "q".data, "strict", "en"⟩
      [⟨1, "a", mkRat 1 2, "t".data, 3⟩] "OK".data).1.answer ≠ no_docs_msg := by
  refine ⟨by decide, by decide, by decide, by decide, by decide, by decide⟩

/-- C8 (amended): deletion and preview of an absent id surface a not-found
condition (`none`), and `/chat` returns the fixed no-valid-documents answer
exactly when none of the requested ids is loaded; an absent id is merely
removed from the requested set, so alongside a loaded id it is silently
dropped rather than reported. -/
theorem C8_amended :
    (∀ (st : AppState) (did : String),
      st.documents.find? (fun d => d.doc_id = did) = none →
      delete_doc st did = none) ∧
    (∀ (st : AppState) (did : String),
      dget st.PDF_STORE did = none →
      st.documents.find? (fun d => d.doc_id = did) = none →
      get_pdf st did = none) ∧
    (∀ (store_keys : List String) (doc_meta : List (String × Meta)) (req : ChatReq)
       (retrieved : List Hit) (llm_answer : List Char),
      chat_doc_ids req store_keys = [] →
      chat_with_pdf store_keys doc_meta req retrieved llm_answer =
        ({ answer := no_docs_msg, sources := [], answer_lang := "en" }, false)) ∧
    (∀ (req : ChatReq) (store_keys : List String) (d : String),
      d ∈ chat_raw_doc_ids req → store_keys.contains d = false →
      d ∉ chat_doc_ids req store_keys) := by
  refine ⟨?_, ?_, ?_, ?_⟩
  · intro st did h
    rw [delete_doc, h]
  · intro st did h1 h2
    rw [get_pdf, h1, h2]
  · intro store_keys doc_meta req retrieved llm_answer h
    simp only [chat_with_pdf]
    rw [if_pos h]
  · intro req store_keys d _ hcont hmem
    rw [chat_doc_ids, List.mem_filter] at hmem
    have h2 := hmem.2
    rw [hcont] at h2
    simp at h2

/-- Witness for `C8_amended`: each conjunct applied at a concrete input. -/
theorem C8_wit :
    delete_doc ⟨[], [], [], [], [], [], [], []⟩ "x" = none ∧
    get_pdf ⟨[], [], [], [], [], [], [], []⟩ "x" = none ∧
    chat_with_pdf [] [] ⟨["x"], none, "q".data, "strict", "en"⟩ [] "a".data =
      ({ answer := no_docs_msg, sources := [], answer_lang := "en" }, false) ∧
    "zzz" ∉ chat_doc_ids ⟨["a", "zzz"], none, "q".data, "strict", "en"⟩ ["a"] :=
  ⟨C8_amended.1 ⟨[], [], [], [], [], [], [], []⟩ "x" (by decide),
   C8_amended.2.1 ⟨[], [], [], [], [], [], [], []⟩ "x" (by decide) (by decide),
   C8_amended.2.2.1 [] [] ⟨["x"], none, "q".data, "strict", "en"⟩ [] "a".data (by decide),
   C8_amended.2.2.2 ⟨["a", "zzz"], none, "q".data, "strict", "en"⟩ ["a"] "zzz"
     (by decide) (by decide)⟩

/-! ### Frame lemmas for keyed stores and tables -/

theorem find?_key_filter_none {α : Type} (f : α → String) (l : List α) (X : String) :
    (l.filter (fun a => ¬ f a = X)).find? (fun a => f a = X) = none := by
  rw [List.find?_eq_none]
  intro a ha
  have h2 := (List.mem_filter.mp ha).2
  simp at h2 ⊢
  exact h2

theorem find?_key_filter_ne {α : Type} (f : α → String) (l : List α) (X Y : String)
    (h : Y ≠ X) :
    (l.filter (fun a => ¬ f a = X)).find? (fun a => f a = Y) =
      l.find? (fun a => f a = Y) := by
  induction l with
  | nil => rfl
  | cons a t ih =>
    rw [List.filter_cons]
    by_cases hx : f a = X
    · have hc : (decide ¬(f a = X)) = false := by simp [hx]
      have hyc : (decide (f a = Y)) = false := by
        have : ¬ (f a = Y) := by rw [hx]; exact Ne.symm h
        simp [this]
      rw [hc]
      simp only [Bool.false_eq_true, if_false, ih, List.find?_cons, hyc]
    · have hc : (decide ¬(f a = X)) = true := by simp [hx]
      rw [hc, if_pos rfl, List.find?_cons, List.find?_cons]
      by_cases hy : f a = Y
      · have hyc : (decide (f a = Y)) = true := by simp [hy]
        simp only [hyc]
      · have hyc : (decide (f a = Y)) = false := by simp [hy]
        simp only [hyc, ih]

theorem filter_key_filter_ne {α : Type} (f : α → String) (l : List α) (X Y : String)
    (h : Y ≠ X) :
    (l.filter (fun a => ¬ f a = X)).filter (fun a => f a = Y) =
      l.filter (fun a => f a = Y) := by
  rw [List.filter_filter]
  refine List.filter_congr ?_
  intro a _
  by_cases hy : f a = Y
  · have hx : ¬ (f a = X) := by rw [hy]; exact h
    simp [hy, hx, h]
  · simp [hy]

theorem filter_key_filter_self {α : Type} (f : α → String) (l : List α) (X : String) :
    (l.filter (fun a => ¬ f a = X)).filter (fun a => f a = X) = [] := by
  rw [List.filter_filter, List.filter_eq_nil_iff]
  intro a _
  simp

theorem dget_dpop_self {β : Type} (m : List (String × β)) (k : String) :
    dget (dpop m k) k = none := by
  rw [dget, dpop, find?_key_filter_none (fun p => p.1) m k]
  rfl

theorem dget_dpop_ne {β : Type} (m : List (String × β)) (k y : String) (h : y ≠ k) :
    dget (dpop m k) y = dget m y := by
  rw [dget, dpop, find?_key_filter_ne (fun p => p.1) m k y h, dget]

/-- C10: a successful delete of document `X` returns `ok` naming `X`,
removes `X` from all six in-memory stores and from both database tables,
and leaves every store entry and every database row keyed by any other id
`Y` unchanged. -/
theorem C10_thm (st : AppState) (X Y : String) (row : DocRow)
    (hfind : st.documents.find? (fun d => d.doc_id = X) = some row)
    (hne : Y ≠ X) :
    ∃ st2 resp, delete_doc st X = some (st2, resp) ∧
      resp.ok = true ∧ resp.doc_id = X ∧
      dget st2.PDF_STORE X = none ∧ dget st2.DOC_STORE X = none ∧
      dget st2.PAGE_STORE X = none ∧ dget st2.CHUNK_STORE X = none ∧
      dget st2.VEC_STORE X = none ∧ dget st2.DOC_META X = none ∧
      st2.documents.find? (fun d => d.doc_id = X) = none ∧
      st2.chunks.filter (fun c => c.doc_id = X) = [] ∧
      dget st2.PDF_STORE Y = dget st.PDF_STORE Y ∧
      dget st2.DOC_STORE Y = dget st.DOC_STORE Y ∧
      dget st2.PAGE_STORE Y = dget st.PAGE_STORE Y ∧
      dget st2.CHUNK_STORE Y = dget st.CHUNK_STORE Y ∧
      dget st2.VEC_STORE Y = dget st.VEC_STORE Y ∧
      dget st2.DOC_META Y = dget st.DOC_META Y ∧
      st2.documents.filter (fun d => d.doc_id = Y) =
        st.documents.filter (fun d => d.doc_id = Y) ∧
      st2.chunks.filter (fun c => c.doc_id = Y) =
        st.chunks.filter (fun c => c.doc_id = Y) := by
  refine ⟨{ st with
              documents := st.documents.filter (fun d => ¬ d.doc_id = X)
              chunks := st.chunks.filter (fun c => ¬ c.doc_id = X)
              PDF_STORE := dpop st.PDF_STORE X
              DOC_STORE := dpop st.DOC_STORE X
              PAGE_STORE := dpop st.PAGE_STORE X
              CHUNK_STORE := dpop st.CHUNK_STORE X
              VEC_STORE := dpop st.VEC_STORE X
              DOC_META := dpop st.DOC_META X },
          { ok := true, doc_id := X }, ?_, rfl, rfl,
          dget_dpop_self _ _, dget_dpop_self _ _, dget_dpop_self _ _,
          dget_dpop_self _ _, dget_dpop_self _ _, dget_dpop_self _ _,
          find?_key_filter_none (fun d => d.doc_id) st.documents X,
          filter_key_filter_self (fun c => c.doc_id) st.chunks X,
          dget_dpop_ne _ _ _ hne, dget_dpop_ne _ _ _ hne, dget_dpop_ne _ _ _ hne,
          dget_dpop_ne _ _ _ hne, dget_dpop_ne _ _ _ hne, dget_dpop_ne _ _ _ hne,
          filter_key_filter_ne (fun d => d.doc_id) st.documents X Y hne,
          filter_key_filter_ne (fun c => c.doc_id) st.chunks X Y hne⟩
  rw [delete_doc, hfind]

/-- Two-document state used as the witness input for `C10_thm`. -/
def twoDocState : AppState :=
  { PDF_STORE := [("a", [1]), ("b", [2])]
    DOC_STORE := [("a", "ta".data), ("b", "tb".data)]
    PAGE_STORE := [("a", ["pa".data]), ("b", ["pb".data])]
    CHUNK_STORE := [("a", [⟨"ca".data, 1⟩]), ("b", [⟨"cb".data, 1⟩])]
    VEC_STORE := [("a", ()), ("b", ())]
    DOC_META := [("a", ⟨"fa.pdf".data, 1⟩), ("b", ⟨"fb.pdf".data, 1⟩)]
    documents := [⟨"a", "fa.pdf".data, 1, "ta".data, [1], 10⟩,
                  ⟨"b", "fb.pdf".data, 1, "tb".data, [2], 20⟩]
    chunks := [⟨1, "a", 1, "ca".data⟩, ⟨2, "b", 1, "cb".data⟩] }

/-- Witness for `C10_thm`: delete `"a"` in `twoDocState`, frame id `"b"`. -/
theorem C10_wit :
    ∃ st2 resp, delete_doc twoDocState "a" = some (st2, resp) ∧
      resp.ok = true ∧ resp.doc_id = "a" ∧
      dget st2.PDF_STORE "a" = none ∧ dget st2.DOC_STORE "a" = none ∧
      dget st2.PAGE_STORE "a" = none ∧ dget st2.CHUNK_STORE "a" = none ∧
      dget st2.VEC_STORE "a" = none ∧ dget st2.DOC_META "a" = none ∧
      st2.documents.find? (fun d => d.doc_id = "a") = none ∧
      st2.chunks.filter (fun c => c.doc_id = "a") = [] ∧
      dget st2.PDF_STORE "b" = dget twoDocState.PDF_STORE "b" ∧
      dget st2.DOC_STORE "b" = dget twoDocState.DOC_STORE "b" ∧
      dget st2.PAGE_STORE "b" = dget twoDocState.PAGE_STORE "b" ∧
      dget st2.CHUNK_STORE "b" = dget twoDocState.CHUNK_STORE "b" ∧
      dget st2.VEC_STORE "b" = dget twoDocState.VEC_STORE "b" ∧
      dget st2.DOC_META "b" = dget twoDocState.DOC_META "b" ∧
      st2.documents.filter (fun d => d.doc_id = "b") =
        twoDocState.documents.filter (fun d => d.doc_id = "b") ∧
      st2.chunks.filter (fun c => c.doc_id = "b") =
        twoDocState.chunks.filter (fun c => c.doc_id = "b") :=
  C10_thm twoDocState "a" "b" ⟨"a", "fa.pdf".data, 1, "ta".data, [1], 10⟩
    (by decide) (by decide)

/-- C9: the query preprocessor passes non-Arabic queries through unchanged;
for Arabic queries it requests a translation from the generation oracle
and falls back to the original query when the reply is empty or
`"LLM Error"`-prefixed, otherwise using the stripped reply; and the
retrieval query of `/chat` is exactly this function's output, computed
before retrieval. -/
theorem C9_thm (llm : List Char → List Char) (text : List Char) :
    (text.any isArabicChar = false →
      translate_to_english_if_needed llm text = text) ∧
    (text.any isArabicChar = true →
      (pyStrip (llm (translationPrompt text)) = [] ∨
        llm_error_marker.isPrefixOf (pyStrip (llm (translationPrompt text))) = true) →
      translate_to_english_if_needed llm text = text) ∧
    (text.any isArabicChar = true →
      pyStrip (llm (translationPrompt text)) ≠ [] →
      llm_error_marker.isPrefixOf (pyStrip (llm (translationPrompt text))) = false →
      translate_to_english_if_needed llm text =
        pyStrip (llm (translationPrompt text))) ∧
    (∀ req : ChatReq,
      chat_retrieval_query llm req = translate_to_english_if_needed llm req.message) := by
  refine ⟨?_, ?_, ?_, fun req => rfl⟩
  · intro h
    simp [translate_to_english_if_needed, detect_lang, h]
  · intro h hfail
    simp only [translate_to_english_if_needed, detect_lang, h, if_true]
    rcases hfail with hfail | hfail
    · simp [hfail]
    · simp [hfail]
  · intro h hne hpre
    simp only [translate_to_english_if_needed, detect_lang, h, if_true]
    have hc : (pyStrip (llm (translationPrompt text)) = [] ||
        llm_error_marker.isPrefixOf (pyStrip (llm (translationPrompt text)))) = false := by
      simp [hne, hpre]
    rw [hc]
    simp

/-- Witness for `C9_thm`: an Arabic query whose translation call fails with
an `"LLM Error"` reply falls back to the original query; an English query
passes through an (arbitrary) oracle unchanged. -/
theorem C9_wit :
    translate_to_english_if_needed (fun _ => "LLM Error: boom".data) "سؤال".data =
      "سؤال".data ∧
    translate_to_english_if_needed (fun _ => "anything".data) "hello".data =
      "hello".data :=
  ⟨(C9_thm (fun _ => "LLM Error: boom".data) "سؤال".data).2.1 (by decide)
      (Or.inr (by decide)),
   (C9_thm (fun _ => "anything".data) "hello".data).1 (by decide)⟩

/-- C2 (counterexample): `Document` rows carry no owning-client tag and
`GET /docs` takes no client identity, so a listing — issued by any client —
changes when a document belonging to any other client is added, and the
new document's id is visible in it alongside the first client's document:
cross-client invisibility fails. -/
theorem C2_cex :
    list_docs [⟨"a", "fa.pdf".data, 1, "ta".data, [], 10⟩] ≠
      list_docs [⟨"a", "fa.pdf".data, 1, "ta".data, [], 10⟩,
                 ⟨"b", "fb.pdf".data, 2, "tb".data, [], 20⟩] ∧
    "b" ∈ (list_docs [⟨"a", "fa.pdf".data, 1, "ta".data, [], 10⟩,
                      ⟨"b", "fb.pdf".data, 2, "tb".data, [], 20⟩]).map DocSummary.doc_id ∧
    "a" ∈ (list_docs [⟨"a", "fa.pdf".data, 1, "ta".data, [], 10⟩,
                      ⟨"b", "fb.pdf".data, 2, "tb".data, [], 20⟩]).map DocSummary.doc_id := by
  refine ⟨by decide, by decide, by decide⟩

/-- C2 (amended): the service has no client scoping: the listing returns a
summary of every stored document (a permutation, ordered by creation time
descending), every stored document is visible to every caller, and deletion
succeeds for exactly the ids present in the global table, regardless of any
notion of ownership. -/
theorem C2_amended :
    (∀ docs : List DocRow, (list_docs docs).Perm (docs.map summarizeDoc)) ∧
    (∀ docs : List DocRow, ∀ d ∈ docs, summarizeDoc d ∈ list_docs docs) ∧
    (∀ (st : AppState) (did : String),
      (delete_doc st did).isSome =
        (st.documents.find? (fun d => d.doc_id = did)).isSome) := by
  have hperm : ∀ docs : List DocRow, (list_docs docs).Perm (docs.map summarizeDoc) := by
    intro docs
    exact (List.perm_insertionSort _ docs).map summarizeDoc
  refine ⟨hperm, ?_, ?_⟩
  · intro docs d hd
    exact ((hperm docs).mem_iff).mpr (List.mem_map_of_mem _ hd)
  · intro st did
    rw [delete_doc]
    cases hfind : st.documents.find? (fun d => d.doc_id = did) with
    | none => rfl
    | some row => rfl

/-- Witness for `C2_amended`: each conjunct applied at a concrete input. -/
theorem C2_wit :
    (list_docs [⟨"a", "fa.pdf".data, 1, "ta".data, [], 10⟩]).Perm
      ([⟨"a", "fa.pdf".data, 1, "ta".data, [], 10⟩].map summarizeDoc) ∧
    summarizeDoc ⟨"a", "fa.pdf".data, 1, "ta".data, [], 10⟩ ∈
      list_docs [⟨"a", "fa.pdf".data, 1, "ta".data, [], 10⟩] ∧
    (delete_doc twoDocState "zzz").isSome =
      (twoDocState.documents.find? (fun d => d.doc_id = "zzz")).isSome :=
  ⟨C2_amended.1 [⟨"a", "fa.pdf".data, 1, "ta".data, [], 10⟩],
   C2_amended.2.1 [⟨"a", "fa.pdf".data, 1, "ta".data, [], 10⟩]
     ⟨"a", "fa.pdf".data, 1, "ta".data, [], 10⟩ (by decide),
   C2_amended.2.2 twoDocState "zzz"⟩

end StudySpark
